import Mathlib

/-!
# Formation & Group-Movement Coordination subsystem — shallow embedding

Embedding of the formation-management code of `Navmesh.cpp`
(`create_formation`, `delete_formation`, `add_agent_to_formation`,
`remove_agent_from_formation`, `set_formation_target`, `set_formation_leader`,
`get_formation_agents`, `get_formation_count`, `update_formations`) together
with the `Formation` struct and the `std::map<int, Formation> formations`
registry declared in the `Navmesh` class.

Coordinates are modelled over `ℝ` (the C++ code uses `float`); `sqrtf`,
`cosf`, `sinf` become `Real.sqrt`, `Real.cos`, `Real.sin`.  C `int`
quantities that are non-negative throughout the code (slot indices, member
counts) are modelled as `ℕ` where the C arithmetic on them cannot go
negative, and as `ℤ` elsewhere.  `std::map<int, Formation>` is modelled as
an association list kept strictly sorted by key (std::map iterates in
ascending key order, which matters for `remove_agent_from_formation` and
`update_formations`).
-/

namespace PyRecastDetour

/-- A 3-component float vector (`float[3]` in the source). -/
structure Vec3 where
  x : ℝ
  y : ℝ
  z : ℝ

/-- The `Formation` struct of `Navmesh.h`:
`int id; int type; float spacing; int leader_idx;
std::vector<int> agent_indices; float target_pos[3]; float target_dir[3];
bool has_target;` -/
structure Formation where
  id : Int
  type : Int
  spacing : ℝ
  leader_idx : Int
  agent_indices : List Int
  target_pos : Vec3
  target_dir : Vec3
  has_target : Bool

/-- The part of the `Navmesh` object state the formation subsystem reads and
writes: the crowd flag `is_crowd_init`, the crowd facts it consults
(`crowd->getAgentCount()`, and whether `crowd->getAgent(i)` is non-null and
active), the registry `formations`, and the id counter `next_formation_id`. -/
structure NavState where
  is_crowd_init : Bool
  agentCount : Int
  agentActive : Int → Bool
  formations : List (Int × Formation)
  next_formation_id : Int

/-- `formations.find(key)` on the sorted association list. -/
def mapFind : List (Int × Formation) → Int → Option Formation
  | [], _ => none
  | (k, f) :: rest, key => if k = key then some f else mapFind rest key

/-- `formations[key] = f`: insert keeping keys strictly ascending, replacing
an existing entry with the same key (std::map `operator[]` assignment). -/
def mapInsert : List (Int × Formation) → Int → Formation → List (Int × Formation)
  | [], key, f => [(key, f)]
  | (k, g) :: rest, key, f =>
    if key < k then (key, f) :: (k, g) :: rest
    else if key = k then (key, f) :: rest
    else (k, g) :: mapInsert rest key f

/-- `formations.erase(key)`. -/
def mapErase : List (Int × Formation) → Int → List (Int × Formation)
  | [], _ => []
  | (k, f) :: rest, key => if k = key then rest else (k, f) :: mapErase rest key

/-- The calls `update_formations` makes into the movement engine
(`crowd->requestMoveTarget(agent_idx, 0, target)`). -/
inductive Cmd where
  | requestMoveTarget (agent_idx : Int) (target : Vec3)

/-- The `Formation` value `create_formation` fills in: leader `-1`, empty
member list, `has_target = false`, target position zero, default forward
direction `(0,0,1)`. -/
def newFormation (fid formation_type : Int) (spacing : ℝ) : Formation :=
  { id := fid
    type := formation_type
    spacing := spacing
    leader_idx := -1
    agent_indices := []
    target_pos := ⟨0, 0, 0⟩
    target_dir := ⟨0, 0, 1⟩
    has_target := false }

/-- `Navmesh::create_formation(int formation_type, float spacing)`:
returns `-1` when the crowd is not initialized, otherwise stores the new
`Formation` under the fresh id `next_formation_id++` and returns that id.
No validation is performed on `spacing`. -/
def create_formation (s : NavState) (formation_type : Int) (spacing : ℝ) :
    NavState × Int :=
  if s.is_crowd_init = false then (s, -1)
  else
    let fid := s.next_formation_id
    let f := newFormation fid formation_type spacing
    ({ s with formations := mapInsert s.formations fid f
              next_formation_id := fid + 1 }, fid)

/-- `Navmesh::delete_formation(int formation_id)`: if the id is unknown it
only logs an error; otherwise it erases the entry.  The loop over
`formation.agent_indices` in the source has an empty body (a comment notes
the agents are not removed from the crowd), so no movement-engine command
is ever issued; we record the issued commands explicitly as the second
component. -/
def delete_formation (s : NavState) (formation_id : Int) :
    NavState × List Cmd :=
  match mapFind s.formations formation_id with
  | none => (s, [])
  | some _ => ({ s with formations := mapErase s.formations formation_id }, [])

/-- `Navmesh::add_agent_to_formation(int formation_id, int agent_idx)`:
guards on crowd initialization, formation existence and
`0 <= agent_idx < crowd->getAgentCount()`; returns `true` without change if
the agent is already in this formation, otherwise appends it. -/
def add_agent_to_formation (s : NavState) (formation_id agent_idx : Int) :
    NavState × Bool :=
  if s.is_crowd_init = false then (s, false)
  else
    match mapFind s.formations formation_id with
    | none => (s, false)
    | some f =>
      if agent_idx < 0 ∨ s.agentCount ≤ agent_idx then (s, false)
      else if agent_idx ∈ f.agent_indices then (s, true)
      else
        let f2 := { f with agent_indices := f.agent_indices ++ [agent_idx] }
        ({ s with formations := mapInsert s.formations formation_id f2 }, true)

/-- What `remove_agent_from_formation` does to the one formation in which it
finds the agent: `std::find` + `erase` drops the first occurrence, and
`leader_idx` is cleared to `-1` when it was the removed agent. -/
def removeTransform (a : Int) (f : Formation) : Formation :=
  { f with
    agent_indices := f.agent_indices.erase a
    leader_idx := if f.leader_idx = a then -1 else f.leader_idx }

/-- The body of the reverse-lookup loop of
`Navmesh::remove_agent_from_formation`: scan the formations in ascending key
order; apply `removeTransform` to the first one whose member list contains
the agent; `none` when no formation contains the agent. -/
def removeScan : List (Int × Formation) → Int → Option (List (Int × Formation))
  | [], _ => none
  | (k, f) :: rest, agent_idx =>
    if agent_idx ∈ f.agent_indices then
      some ((k, removeTransform agent_idx f) :: rest)
    else
      match removeScan rest agent_idx with
      | none => none
      | some rest2 => some ((k, f) :: rest2)

/-- `Navmesh::remove_agent_from_formation(int agent_idx)`: guard on crowd
initialization, then the reverse-lookup scan; returns `false` (state
untouched) when the agent is in no formation. -/
def remove_agent_from_formation (s : NavState) (agent_idx : Int) :
    NavState × Bool :=
  if s.is_crowd_init = false then (s, false)
  else
    match removeScan s.formations agent_idx with
    | none => (s, false)
    | some fs => ({ s with formations := fs }, true)

/-- `Navmesh::set_formation_target(int, std::vector<float>, std::vector<float>)`:
no-op (error log) when the formation is unknown or either vector has fewer
than 3 components; otherwise stores the position, sets `has_target = true`,
and stores the direction normalized when its length exceeds `0.001`, else
the default `(0,0,1)`. -/
noncomputable def set_formation_target (s : NavState) (formation_id : Int)
    (target_pos target_dir : List ℝ) : NavState :=
  match mapFind s.formations formation_id with
  | none => s
  | some f =>
    if target_pos.length < 3 then s
    else if target_dir.length < 3 then s
    else
      let dx := target_dir.getD 0 0
      let dy := target_dir.getD 1 0
      let dz := target_dir.getD 2 0
      let len := Real.sqrt (dx * dx + dy * dy + dz * dz)
      let dir : Vec3 :=
        if (0.001 : ℝ) < len then ⟨dx / len, dy / len, dz / len⟩
        else ⟨0, 0, 1⟩
      let f2 := { f with
        has_target := true
        target_pos := ⟨target_pos.getD 0 0, target_pos.getD 1 0, target_pos.getD 2 0⟩
        target_dir := dir }
      { s with formations := mapInsert s.formations formation_id f2 }

/-- `Navmesh::set_formation_leader(int formation_id, int agent_idx)`: no-op
(error log) when the formation is unknown or the agent is not a member;
otherwise records the leader. -/
def set_formation_leader (s : NavState) (formation_id agent_idx : Int) :
    NavState :=
  match mapFind s.formations formation_id with
  | none => s
  | some f =>
    if agent_idx ∈ f.agent_indices then
      let f2 := { f with leader_idx := agent_idx }
      { s with formations := mapInsert s.formations formation_id f2 }
    else s

/-- `Navmesh::get_formation_agents(int formation_id)`: the failure branch
(unknown id, error logged, empty vector returned) is modelled as `none`. -/
def get_formation_agents (s : NavState) (formation_id : Int) :
    Option (List Int) :=
  match mapFind s.formations formation_id with
  | none => none
  | some f => some f.agent_indices

/-- `Navmesh::get_formation_count()`: `(int)formations.size()`. -/
def get_formation_count (s : NavState) : Int :=
  s.formations.length

/-- The line-formation lateral scalar of `update_formations` (case 0):
`int center_idx = num_agents / 2; offset = (i - center_idx) * spacing * right`.
The multiplier `(i - center_idx)` is C `int` arithmetic with
`center_idx = num_agents / 2` by integer division. -/
def lineLateral (num_agents i : ℕ) (spacing : ℝ) : ℝ :=
  (((i : ℤ) - ((num_agents / 2 : ℕ) : ℤ) : ℤ) : ℝ) * spacing

/-- `(int)ceil(sqrtf(n))` for a non-negative `n` — the exact ⌈√n⌉. -/
def ceilSqrtNat (n : ℕ) : ℕ :=
  if Nat.sqrt n * Nat.sqrt n = n then Nat.sqrt n else Nat.sqrt n + 1

/-- The `switch (formation.type)` of `update_formations` computing
`(offset_x, offset_z)` for the member at loop index `i` (0-based insertion
order) of a formation with `num_agents` members.  A type outside 0..4 leaves
the offsets at their initialisation `0.0f`.  `row = (int)sqrtf((float)i)` in
the wedge case is the truncated square root `Nat.sqrt i`. -/
noncomputable def offsetFor (ftype : Int) (num_agents i : ℕ) (spacing : ℝ)
    (right dir : Vec3) : ℝ × ℝ :=
  if ftype = 0 then
    -- Line formation
    (lineLateral num_agents i spacing * right.x,
     lineLateral num_agents i spacing * right.z)
  else if ftype = 1 then
    -- Column formation
    (-(i : ℝ) * spacing * dir.x, -(i : ℝ) * spacing * dir.z)
  else if ftype = 2 then
    -- Wedge formation
    let row := Nat.sqrt i
    let col := i - row * row
    (((col : ℝ) - (row : ℝ) * 0.5) * spacing * right.x - (row : ℝ) * spacing * dir.x,
     ((col : ℝ) - (row : ℝ) * 0.5) * spacing * right.z - (row : ℝ) * spacing * dir.z)
  else if ftype = 3 then
    -- Box formation
    let side_len := ceilSqrtNat num_agents
    let row := i / side_len
    let col := i % side_len
    (((col : ℝ) - (side_len : ℝ) * 0.5) * spacing * right.x - (row : ℝ) * spacing * dir.x,
     ((col : ℝ) - (side_len : ℝ) * 0.5) * spacing * right.z - (row : ℝ) * spacing * dir.z)
  else if ftype = 4 then
    -- Circle formation
    let angle := (i : ℝ) / (num_agents : ℝ) * 2.0 * 3.14159
    let radius := spacing * (num_agents : ℝ) / (2.0 * 3.14159)
    (radius * Real.cos angle * right.x + radius * Real.sin angle * dir.x,
     radius * Real.cos angle * right.z + radius * Real.sin angle * dir.z)
  else (0, 0)

/-- The per-formation body of the `update_formations` loop: skip when
`!formation.has_target || formation.agent_indices.empty()`; otherwise build
the right vector `(dir.z, 0, -dir.x)` normalized in the ground plane when
its length exceeds `0.001`, and for each member in insertion order whose
index is a valid, active crowd agent, request a move to
`center + offset` (same height as the centre). -/
noncomputable def formationCmds (s : NavState) (f : Formation) : List Cmd :=
  if f.has_target = false ∨ f.agent_indices = [] then []
  else
    let center := f.target_pos
    let dir := f.target_dir
    let right0 : Vec3 := ⟨dir.z, 0, -dir.x⟩
    let right_len := Real.sqrt (right0.x * right0.x + right0.z * right0.z)
    let right : Vec3 :=
      if (0.001 : ℝ) < right_len then ⟨right0.x / right_len, 0, right0.z / right_len⟩
      else right0
    let num_agents := f.agent_indices.length
    (List.range num_agents).filterMap fun i =>
      let agent_idx := f.agent_indices.getD i 0
      if agent_idx < 0 ∨ s.agentCount ≤ agent_idx then none
      else
        let off := offsetFor f.type num_agents i f.spacing right dir
        let target : Vec3 := ⟨center.x + off.1, center.y, center.z + off.2⟩
        if s.agentActive agent_idx then some (Cmd.requestMoveTarget agent_idx target)
        else none

/-- `Navmesh::update_formations(float dt)`: returns immediately when the
crowd is not initialized; otherwise iterates the registry in ascending key
order dispatching the move-target requests.  The function writes no field of
any `Formation` and no registry entry (every access in the source is a
read), so it is modelled as returning only the dispatched command list; the
parameter `dt` is never read by the source body. -/
noncomputable def update_formations (s : NavState) (dt : ℝ) : List Cmd :=
  if s.is_crowd_init = false then []
  else (s.formations.map fun kf => formationCmds s kf.2).flatten

/-! ## Operation traces and reachable registry states -/

/-- One formation-subsystem call, with its arguments. -/
inductive FOp where
  | create (formation_type : Int) (spacing : ℝ)
  | del (formation_id : Int)
  | add (formation_id agent_idx : Int)
  | remove (agent_idx : Int)
  | setTarget (formation_id : Int) (target_pos target_dir : List ℝ)
  | setLeader (formation_id agent_idx : Int)
  | tick (dt : ℝ)

/-- The state after one call.  `update_formations` performs no write to
`formations` or `next_formation_id` (every access in its body is a read), so
`tick` leaves the state unchanged. -/
noncomputable def applyOp (s : NavState) : FOp → NavState
  | .create t sp => (create_formation s t sp).1
  | .del fid => (delete_formation s fid).1
  | .add fid a => (add_agent_to_formation s fid a).1
  | .remove a => (remove_agent_from_formation s a).1
  | .setTarget fid p d => set_formation_target s fid p d
  | .setLeader fid a => set_formation_leader s fid a
  | .tick _ => s

/-- The state set up by the `Navmesh` constructor: `next_formation_id = 0`,
no formations, crowd not initialized. -/
def initState : NavState :=
  { is_crowd_init := false
    agentCount := 0
    agentActive := fun _ => false
    formations := []
    next_formation_id := 0 }

/-- Registry states reachable from the constructor state by formation calls
interleaved with arbitrary activity of the rest of the `Navmesh` object
(crowd initialization, adding or removing crowd agents): no function outside
the formation subsystem touches `formations` or `next_formation_id`, so the
environment step changes only the crowd facts. -/
inductive Reachable : NavState → Prop where
  | init : Reachable initState
  | step (s : NavState) (op : FOp) : Reachable s → Reachable (applyOp s op)
  | env (s : NavState) (b : Bool) (n : Int) (act : Int → Bool) :
      Reachable s →
      Reachable { s with is_crowd_init := b, agentCount := n, agentActive := act }

/-! ## Association-list lemmas for the `std::map` model -/

/-- Keys strictly ascending — the `std::map` representation invariant. -/
def mapWF (m : List (Int × Formation)) : Prop :=
  List.Pairwise (fun a b => a.1 < b.1) m

/-- The leader, when set (`≠ -1`), is a member. -/
def leaderOk (f : Formation) : Prop :=
  f.leader_idx = -1 ∨ f.leader_idx ∈ f.agent_indices

/-- A member list without duplicates. -/
def membersOk (f : Formation) : Prop :=
  f.agent_indices.Nodup

/-- Every registered formation id is below the `next_formation_id` counter. -/
def counterInv (s : NavState) : Prop :=
  ∀ kf ∈ s.formations, kf.1 < s.next_formation_id

/-- The Layout Engine line rule as the spec words it — lateral offset
`(i - (N-1)/2) * spacing` with the real-valued midpoint `(N-1)/2` — stated
for the refinement comparison against the source's `lineLateral`. -/
noncomputable def lineLateralSpec (num_agents i : ℕ) (spacing : ℝ) : ℝ :=
  ((i : ℝ) - ((num_agents : ℝ) - 1) / 2) * spacing

/-- A crowd-initialized state with four agents and an empty registry — the
concrete configuration used to evaluate the operations below. -/
def sCrowd : NavState :=
  { is_crowd_init := true
    agentCount := 4
    agentActive := fun _ => true
    formations := []
    next_formation_id := 0 }

theorem mapFind_eq_none (m : List (Int × Formation)) (k : Int)
    (h : ∀ kf ∈ m, kf.1 ≠ k) : mapFind m k = none := by
  induction m with
  | nil => rfl
  | cons kf rest ih =>
    obtain ⟨k0, f0⟩ := kf
    simp only [mapFind]
    rw [if_neg (h (k0, f0) (List.mem_cons_self _ _))]
    exact ih fun kg hg => h kg (List.mem_cons_of_mem _ hg)

theorem mapFind_mapInsert_self (m : List (Int × Formation)) (k : Int)
    (f : Formation) : mapFind (mapInsert m k f) k = some f := by
  induction m with
  | nil => simp [mapInsert, mapFind]
  | cons kf rest ih =>
    obtain ⟨k0, f0⟩ := kf
    by_cases h1 : k < k0
    · simp [mapInsert, h1, mapFind]
    · by_cases h2 : k = k0
      · simp [mapInsert, h1, h2, mapFind]
      · simp only [mapInsert, if_neg h1, if_neg h2, mapFind]
        rw [if_neg fun h => h2 h.symm]
        exact ih

theorem mapFind_mapInsert_ne (m : List (Int × Formation)) (k k' : Int)
    (f : Formation) (hne : k' ≠ k) :
    mapFind (mapInsert m k f) k' = mapFind m k' := by
  induction m with
  | nil =>
    simp only [mapInsert, mapFind]
    exact if_neg fun h => hne h.symm
  | cons kf rest ih =>
    obtain ⟨k0, f0⟩ := kf
    by_cases h1 : k < k0
    · simp only [mapInsert, if_pos h1, mapFind]
      rw [if_neg fun h => hne h.symm]
    · by_cases h2 : k = k0
      · simp only [mapInsert, if_neg h1, if_pos h2, mapFind]
        rw [if_neg fun h : k = k' => hne h.symm,
            if_neg fun h : k0 = k' => hne (h2.trans h).symm]
      · simp only [mapInsert, if_neg h1, if_neg h2, mapFind, ih]

theorem mapFind_mapErase_ne (m : List (Int × Formation)) (k k' : Int)
    (hne : k' ≠ k) : mapFind (mapErase m k) k' = mapFind m k' := by
  induction m with
  | nil => rfl
  | cons kf rest ih =>
    obtain ⟨k0, f0⟩ := kf
    by_cases h1 : k0 = k
    · simp only [mapErase, if_pos h1, mapFind]
      rw [if_neg fun h : k0 = k' => hne (h.symm.trans h1)]
    · simp only [mapErase, if_neg h1, mapFind, ih]

theorem mapErase_sublist (m : List (Int × Formation)) (k : Int) :
    (mapErase m k).Sublist m := by
  induction m with
  | nil => simp [mapErase]
  | cons kf rest ih =>
    obtain ⟨k0, f0⟩ := kf
    by_cases h1 : k0 = k
    · simp only [mapErase, if_pos h1]
      exact (List.Sublist.refl rest).cons _
    · simp only [mapErase, if_neg h1]
      exact ih.cons₂ _

theorem mapFind_mapErase_self (m : List (Int × Formation)) (k : Int)
    (hwf : mapWF m) : mapFind (mapErase m k) k = none := by
  induction m with
  | nil => rfl
  | cons kf rest ih =>
    obtain ⟨k0, f0⟩ := kf
    rw [mapWF, List.pairwise_cons] at hwf
    by_cases h1 : k0 = k
    · simp only [mapErase, if_pos h1]
      exact mapFind_eq_none _ _ fun kg hg => (h1 ▸ (hwf.1 kg hg)).ne'
    · simp only [mapErase, if_neg h1, mapFind]
      exact ih hwf.2

theorem mapErase_length (m : List (Int × Formation)) (k : Int) (f : Formation)
    (h : mapFind m k = some f) : (mapErase m k).length + 1 = m.length := by
  induction m with
  | nil => simp [mapFind] at h
  | cons kf rest ih =>
    obtain ⟨k0, f0⟩ := kf
    by_cases h1 : k0 = k
    · simp [mapErase, h1]
    · simp only [mapFind, if_neg h1] at h
      simp only [mapErase, if_neg h1, List.length_cons]
      rw [← ih h]

theorem mapInsert_mem (m : List (Int × Formation)) (k : Int) (f : Formation)
    (kf : Int × Formation) (h : kf ∈ mapInsert m k f) :
    kf = (k, f) ∨ kf ∈ m := by
  induction m with
  | nil =>
    simp only [mapInsert, List.mem_singleton] at h
    exact Or.inl h
  | cons kg rest ih =>
    obtain ⟨k0, f0⟩ := kg
    by_cases h1 : k < k0
    · simp only [mapInsert, if_pos h1, List.mem_cons] at h
      rcases h with h | h | h
      · exact Or.inl h
      · exact Or.inr (List.mem_cons.mpr (Or.inl h))
      · exact Or.inr (List.mem_cons_of_mem _ h)
    · by_cases h2 : k = k0
      · simp only [mapInsert, if_neg h1, if_pos h2, List.mem_cons] at h
        rcases h with h | h
        · exact Or.inl h
        · exact Or.inr (List.mem_cons_of_mem _ h)
      · simp only [mapInsert, if_neg h1, if_neg h2, List.mem_cons] at h
        rcases h with h | h
        · exact Or.inr (List.mem_cons.mpr (Or.inl h))
        · rcases ih h with h' | h'
          · exact Or.inl h'
          · exact Or.inr (List.mem_cons_of_mem _ h')

theorem mapInsert_length_fresh (m : List (Int × Formation)) (k : Int)
    (f : Formation) (h : ∀ kf ∈ m, kf.1 ≠ k) :
    (mapInsert m k f).length = m.length + 1 := by
  induction m with
  | nil => simp [mapInsert]
  | cons kg rest ih =>
    obtain ⟨k0, f0⟩ := kg
    by_cases h1 : k < k0
    · simp [mapInsert, h1]
    · have h2 : k ≠ k0 := fun he => h (k0, f0) (List.mem_cons_self _ _) he.symm
      simp only [mapInsert, if_neg h1, if_neg h2, List.length_cons]
      rw [ih fun kf hf => h kf (List.mem_cons_of_mem _ hf)]

theorem removeScan_keys (m : List (Int × Formation)) (a : Int)
    (m' : List (Int × Formation)) (h : removeScan m a = some m') :
    m'.map Prod.fst = m.map Prod.fst := by
  induction m generalizing m' with
  | nil => simp [removeScan] at h
  | cons kf rest ih =>
    obtain ⟨k0, f0⟩ := kf
    by_cases h1 : a ∈ f0.agent_indices
    · simp only [removeScan, if_pos h1, Option.some.injEq] at h
      subst h; simp
    · simp only [removeScan, if_neg h1] at h
      cases hrec : removeScan rest a with
      | none => rw [hrec] at h; exact absurd h (by simp)
      | some rest2 =>
        rw [hrec] at h
        simp only [Option.some.injEq] at h
        subst h
        simp [ih rest2 hrec]

theorem mapFind_some_mem (m : List (Int × Formation)) (k : Int) (f : Formation)
    (h : mapFind m k = some f) : (k, f) ∈ m := by
  induction m with
  | nil => simp [mapFind] at h
  | cons kg rest ih =>
    obtain ⟨k0, f0⟩ := kg
    by_cases h1 : k0 = k
    · simp only [mapFind, if_pos h1, Option.some.injEq] at h
      subst h1; subst h
      exact List.mem_cons_self _ _
    · simp only [mapFind, if_neg h1] at h
      exact List.mem_cons_of_mem _ (ih h)

theorem mapWF_mapInsert (m : List (Int × Formation)) (k : Int) (f : Formation)
    (h : mapWF m) : mapWF (mapInsert m k f) := by
  induction m with
  | nil => simp [mapInsert, mapWF]
  | cons kg rest ih =>
    obtain ⟨k0, f0⟩ := kg
    rw [mapWF, List.pairwise_cons] at h
    by_cases h1 : k < k0
    · simp only [mapInsert, if_pos h1]
      rw [mapWF, List.pairwise_cons]
      refine ⟨fun kf hkf => ?_, List.pairwise_cons.mpr h⟩
      rcases List.mem_cons.mp hkf with he | hm
      · rw [he]; exact h1
      · exact h1.trans (h.1 kf hm)
    · by_cases h2 : k = k0
      · simp only [mapInsert, if_neg h1, if_pos h2]
        rw [mapWF, List.pairwise_cons]
        exact ⟨fun kf hkf => by rw [h2]; exact h.1 kf hkf, h.2⟩
      · simp only [mapInsert, if_neg h1, if_neg h2]
        rw [mapWF, List.pairwise_cons]
        refine ⟨fun kf hkf => ?_, ih h.2⟩
        rcases mapInsert_mem rest k f kf hkf with he | hm
        · rw [he]
          exact lt_of_le_of_ne (not_lt.mp h1) fun hh => h2 hh.symm
        · exact h.1 kf hm

theorem mapWF_removeScan (m m' : List (Int × Formation)) (a : Int)
    (h : removeScan m a = some m') (hwf : mapWF m) : mapWF m' := by
  have h1 : List.Pairwise (· < ·) (m.map Prod.fst) := List.pairwise_map.mpr hwf
  rw [← removeScan_keys m a m' h] at h1
  exact List.pairwise_map.mp h1

theorem reachable_mapWF (s : NavState) (h : Reachable s) : mapWF s.formations := by
  induction h with
  | init => exact List.Pairwise.nil
  | env s b n act _ ih => exact ih
  | step s op _ ih =>
    cases op with
    | create t sp =>
      by_cases hc : s.is_crowd_init = false
      · simpa only [applyOp, create_formation, if_pos hc] using ih
      · simp only [applyOp, create_formation, if_neg hc]
        exact mapWF_mapInsert _ _ _ ih
    | del fid =>
      cases hf : mapFind s.formations fid with
      | none => simpa only [applyOp, delete_formation, hf] using ih
      | some f =>
        simp only [applyOp, delete_formation, hf]
        exact List.Pairwise.sublist (mapErase_sublist _ _) ih
    | add fid a =>
      by_cases hc : s.is_crowd_init = false
      · simpa only [applyOp, add_agent_to_formation, if_pos hc] using ih
      · cases hf : mapFind s.formations fid with
        | none => simpa only [applyOp, add_agent_to_formation, if_neg hc, hf] using ih
        | some f =>
          by_cases hb : a < 0 ∨ s.agentCount ≤ a
          · simpa only [applyOp, add_agent_to_formation, if_neg hc, hf, if_pos hb] using ih
          · by_cases hmem : a ∈ f.agent_indices
            · simpa only [applyOp, add_agent_to_formation, if_neg hc, hf, if_neg hb,
                if_pos hmem] using ih
            · simp only [applyOp, add_agent_to_formation, if_neg hc, hf, if_neg hb,
                if_neg hmem]
              exact mapWF_mapInsert _ _ _ ih
    | remove a =>
      by_cases hc : s.is_crowd_init = false
      · simpa only [applyOp, remove_agent_from_formation, if_pos hc] using ih
      · cases hr : removeScan s.formations a with
        | none => simpa only [applyOp, remove_agent_from_formation, if_neg hc, hr] using ih
        | some m' =>
          simp only [applyOp, remove_agent_from_formation, if_neg hc, hr]
          exact mapWF_removeScan _ _ _ hr ih
    | setTarget fid p d =>
      cases hf : mapFind s.formations fid with
      | none => simpa only [applyOp, set_formation_target, hf] using ih
      | some f =>
        by_cases hp : p.length < 3
        · simpa only [applyOp, set_formation_target, hf, if_pos hp] using ih
        · by_cases hd : d.length < 3
          · simpa only [applyOp, set_formation_target, hf, if_neg hp, if_pos hd] using ih
          · simp only [applyOp, set_formation_target, hf, if_neg hp, if_neg hd]
            exact mapWF_mapInsert _ _ _ ih
    | setLeader fid a =>
      cases hf : mapFind s.formations fid with
      | none => simpa only [applyOp, set_formation_leader, hf] using ih
      | some f =>
        by_cases hmem : a ∈ f.agent_indices
        · simp only [applyOp, set_formation_leader, hf, if_pos hmem]
          exact mapWF_mapInsert _ _ _ ih
        · simpa only [applyOp, set_formation_leader, hf, if_neg hmem] using ih
    | tick dt => exact ih

theorem removeScan_preserve (P : Formation → Prop) (a : Int)
    (hstep : ∀ f, P f → P (removeTransform a f))
    (m : List (Int × Formation)) :
    ∀ m', removeScan m a = some m' → (∀ kf ∈ m, P kf.2) → ∀ kf ∈ m', P kf.2 := by
  induction m with
  | nil => intro m' h; simp [removeScan] at h
  | cons kg rest ih =>
    obtain ⟨k0, f0⟩ := kg
    intro m' h hP
    by_cases h1 : a ∈ f0.agent_indices
    · simp only [removeScan, if_pos h1, Option.some.injEq] at h
      subst h
      intro kf hkf
      rcases List.mem_cons.mp hkf with he | hm
      · rw [he]
        exact hstep f0 (hP (k0, f0) (List.mem_cons_self _ _))
      · exact hP kf (List.mem_cons_of_mem _ hm)
    · simp only [removeScan, if_neg h1] at h
      cases hrec : removeScan rest a with
      | none => rw [hrec] at h; exact absurd h (by simp)
      | some rest2 =>
        rw [hrec] at h
        simp only [Option.some.injEq] at h
        subst h
        intro kf hkf
        rcases List.mem_cons.mp hkf with he | hm
        · rw [he]; exact hP (k0, f0) (List.mem_cons_self _ _)
        · exact ih rest2 hrec (fun kg hg => hP kg (List.mem_cons_of_mem _ hg)) kf hm

/-- Closure of a per-formation predicate under every write the subsystem
performs, hence its preservation across one call. -/
theorem formationsInv_step (P : Formation → Prop)
    (hcreate : ∀ fid t sp, P (newFormation fid t sp))
    (hadd : ∀ f a, a ∉ f.agent_indices → P f →
        P { f with agent_indices := f.agent_indices ++ [a] })
    (hremove : ∀ f a, P f → P (removeTransform a f))
    (htarget : ∀ f p d, P f → P { f with has_target := true, target_pos := p, target_dir := d })
    (hleader : ∀ f a, a ∈ f.agent_indices → P f → P { f with leader_idx := a })
    (s : NavState) (op : FOp) (hP : ∀ kf ∈ s.formations, P kf.2) :
    ∀ kf ∈ (applyOp s op).formations, P kf.2 := by
  cases op with
  | create t sp =>
    intro kf hkf
    by_cases hc : s.is_crowd_init = false
    · simp only [applyOp, create_formation, if_pos hc] at hkf
      exact hP kf hkf
    · simp only [applyOp, create_formation, if_neg hc] at hkf
      rcases mapInsert_mem _ _ _ kf hkf with he | hm
      · rw [he]; exact hcreate _ _ _
      · exact hP kf hm
  | del fid =>
    intro kf hkf
    cases hf : mapFind s.formations fid with
    | none =>
      simp only [applyOp, delete_formation, hf] at hkf
      exact hP kf hkf
    | some f =>
      simp only [applyOp, delete_formation, hf] at hkf
      exact hP kf ((mapErase_sublist _ _).subset hkf)
  | add fid a =>
    intro kf hkf
    by_cases hc : s.is_crowd_init = false
    · simp only [applyOp, add_agent_to_formation, if_pos hc] at hkf
      exact hP kf hkf
    · cases hf : mapFind s.formations fid with
      | none =>
        simp only [applyOp, add_agent_to_formation, if_neg hc, hf] at hkf
        exact hP kf hkf
      | some f =>
        by_cases hb : a < 0 ∨ s.agentCount ≤ a
        · simp only [applyOp, add_agent_to_formation, if_neg hc, hf, if_pos hb] at hkf
          exact hP kf hkf
        · by_cases hmem : a ∈ f.agent_indices
          · simp only [applyOp, add_agent_to_formation, if_neg hc, hf, if_neg hb,
              if_pos hmem] at hkf
            exact hP kf hkf
          · simp only [applyOp, add_agent_to_formation, if_neg hc, hf, if_neg hb,
              if_neg hmem] at hkf
            rcases mapInsert_mem _ _ _ kf hkf with he | hm
            · rw [he]
              exact hadd f a hmem (hP (fid, f) (mapFind_some_mem _ _ _ hf))
            · exact hP kf hm
  | remove a =>
    intro kf hkf
    by_cases hc : s.is_crowd_init = false
    · simp only [applyOp, remove_agent_from_formation, if_pos hc] at hkf
      exact hP kf hkf
    · cases hr : removeScan s.formations a with
      | none =>
        simp only [applyOp, remove_agent_from_formation, if_neg hc, hr] at hkf
        exact hP kf hkf
      | some m' =>
        simp only [applyOp, remove_agent_from_formation, if_neg hc, hr] at hkf
        exact removeScan_preserve P a (fun f hf => hremove f a hf) s.formations m' hr hP kf hkf
  | setTarget fid p d =>
    intro kf hkf
    cases hf : mapFind s.formations fid with
    | none =>
      simp only [applyOp, set_formation_target, hf] at hkf
      exact hP kf hkf
    | some f =>
      by_cases hp : p.length < 3
      · simp only [applyOp, set_formation_target, hf, if_pos hp] at hkf
        exact hP kf hkf
      · by_cases hd : d.length < 3
        · simp only [applyOp, set_formation_target, hf, if_neg hp, if_pos hd] at hkf
          exact hP kf hkf
        · simp only [applyOp, set_formation_target, hf, if_neg hp, if_neg hd] at hkf
          rcases mapInsert_mem _ _ _ kf hkf with he | hm
          · rw [he]
            exact htarget f _ _ (hP (fid, f) (mapFind_some_mem _ _ _ hf))
          · exact hP kf hm
  | setLeader fid a =>
    intro kf hkf
    cases hf : mapFind s.formations fid with
    | none =>
      simp only [applyOp, set_formation_leader, hf] at hkf
      exact hP kf hkf
    | some f =>
      by_cases hmem : a ∈ f.agent_indices
      · simp only [applyOp, set_formation_leader, hf, if_pos hmem] at hkf
        rcases mapInsert_mem _ _ _ kf hkf with he | hm
        · rw [he]
          exact hleader f a hmem (hP (fid, f) (mapFind_some_mem _ _ _ hf))
        · exact hP kf hm
      · simp only [applyOp, set_formation_leader, hf, if_neg hmem] at hkf
        exact hP kf hkf
  | tick dt =>
    intro kf hkf
    exact hP kf hkf

theorem reachable_formationsInv (P : Formation → Prop)
    (hcreate : ∀ fid t sp, P (newFormation fid t sp))
    (hadd : ∀ f a, a ∉ f.agent_indices → P f →
        P { f with agent_indices := f.agent_indices ++ [a] })
    (hremove : ∀ f a, P f → P (removeTransform a f))
    (htarget : ∀ f p d, P f → P { f with has_target := true, target_pos := p, target_dir := d })
    (hleader : ∀ f a, a ∈ f.agent_indices → P f → P { f with leader_idx := a })
    (s : NavState) (h : Reachable s) : ∀ kf ∈ s.formations, P kf.2 := by
  induction h with
  | init => intro kf hkf; simp [initState] at hkf
  | env s b n act _ ih => exact ih
  | step s op _ ih =>
    exact formationsInv_step P hcreate hadd hremove htarget hleader s op ih

theorem reachable_counterInv (s : NavState) (h : Reachable s) : counterInv s := by
  induction h with
  | init => intro kf hkf; simp [initState] at hkf
  | env s b n act _ ih => exact ih
  | step s op _ ih =>
    cases op with
    | create t sp =>
      by_cases hc : s.is_crowd_init = false
      · simpa only [applyOp, create_formation, if_pos hc] using ih
      · intro kf hkf
        simp only [applyOp, create_formation, if_neg hc] at hkf ⊢
        rcases mapInsert_mem _ _ _ kf hkf with he | hm
        · rw [he]; exact lt_add_one _
        · exact (ih kf hm).trans (lt_add_one _)
    | del fid =>
      cases hf : mapFind s.formations fid with
      | none => simpa only [applyOp, delete_formation, hf] using ih
      | some f =>
        intro kf hkf
        simp only [applyOp, delete_formation, hf] at hkf ⊢
        exact ih kf ((mapErase_sublist _ _).subset hkf)
    | add fid a =>
      by_cases hc : s.is_crowd_init = false
      · simpa only [applyOp, add_agent_to_formation, if_pos hc] using ih
      · cases hf : mapFind s.formations fid with
        | none => simpa only [applyOp, add_agent_to_formation, if_neg hc, hf] using ih
        | some f =>
          by_cases hb : a < 0 ∨ s.agentCount ≤ a
          · simpa only [applyOp, add_agent_to_formation, if_neg hc, hf, if_pos hb] using ih
          · by_cases hmem : a ∈ f.agent_indices
            · simpa only [applyOp, add_agent_to_formation, if_neg hc, hf, if_neg hb,
                if_pos hmem] using ih
            · intro kf hkf
              simp only [applyOp, add_agent_to_formation, if_neg hc, hf, if_neg hb,
                if_neg hmem] at hkf ⊢
              rcases mapInsert_mem _ _ _ kf hkf with he | hm
              · rw [he]; exact ih (fid, f) (mapFind_some_mem _ _ _ hf)
              · exact ih kf hm
    | remove a =>
      by_cases hc : s.is_crowd_init = false
      · simpa only [applyOp, remove_agent_from_formation, if_pos hc] using ih
      · cases hr : removeScan s.formations a with
        | none => simpa only [applyOp, remove_agent_from_formation, if_neg hc, hr] using ih
        | some m' =>
          intro kf hkf
          simp only [applyOp, remove_agent_from_formation, if_neg hc, hr] at hkf ⊢
          have hk : kf.1 ∈ m'.map Prod.fst := List.mem_map_of_mem _ hkf
          rw [removeScan_keys _ _ _ hr] at hk
          rcases List.mem_map.mp hk with ⟨kg, hkg, heq⟩
          exact heq ▸ ih kg hkg
    | setTarget fid p d =>
      cases hf : mapFind s.formations fid with
      | none => simpa only [applyOp, set_formation_target, hf] using ih
      | some f =>
        by_cases hp : p.length < 3
        · simpa only [applyOp, set_formation_target, hf, if_pos hp] using ih
        · by_cases hd : d.length < 3
          · simpa only [applyOp, set_formation_target, hf, if_neg hp, if_pos hd] using ih
          · intro kf hkf
            simp only [applyOp, set_formation_target, hf, if_neg hp, if_neg hd] at hkf ⊢
            rcases mapInsert_mem _ _ _ kf hkf with he | hm
            · rw [he]; exact ih (fid, f) (mapFind_some_mem _ _ _ hf)
            · exact ih kf hm
    | setLeader fid a =>
      cases hf : mapFind s.formations fid with
      | none => simpa only [applyOp, set_formation_leader, hf] using ih
      | some f =>
        by_cases hmem : a ∈ f.agent_indices
        · intro kf hkf
          simp only [applyOp, set_formation_leader, hf, if_pos hmem] at hkf ⊢
          rcases mapInsert_mem _ _ _ kf hkf with he | hm
          · rw [he]; exact ih (fid, f) (mapFind_some_mem _ _ _ hf)
          · exact ih kf hm
        · simpa only [applyOp, set_formation_leader, hf, if_neg hmem] using ih
    | tick dt => exact ih

theorem removeScan_none (a : Int) (m : List (Int × Formation))
    (h : ∀ kf ∈ m, a ∉ kf.2.agent_indices) : removeScan m a = none := by
  induction m with
  | nil => rfl
  | cons kg rest ih =>
    obtain ⟨k0, f0⟩ := kg
    simp only [removeScan]
    rw [if_neg (h (k0, f0) (List.mem_cons_self _ _))]
    rw [ih fun kf hkf => h kf (List.mem_cons_of_mem _ hkf)]

theorem removeScan_mapFind (a fid : Int) (m : List (Int × Formation)) :
    ∀ m', removeScan m a = some m' →
    mapFind m' fid = mapFind m fid ∨
    ∃ f, mapFind m fid = some f ∧ mapFind m' fid = some (removeTransform a f) := by
  induction m with
  | nil => intro m' h; simp [removeScan] at h
  | cons kg rest ih =>
    obtain ⟨k0, f0⟩ := kg
    intro m' h
    by_cases h1 : a ∈ f0.agent_indices
    · simp only [removeScan, if_pos h1, Option.some.injEq] at h
      subst h
      by_cases hk : k0 = fid
      · refine Or.inr ⟨f0, ?_, ?_⟩
        · simp [mapFind, hk]
        · simp [mapFind, hk]
      · refine Or.inl ?_
        simp [mapFind, hk]
    · simp only [removeScan, if_neg h1] at h
      cases hrec : removeScan rest a with
      | none => rw [hrec] at h; exact absurd h (by simp)
      | some rest2 =>
        rw [hrec] at h
        simp only [Option.some.injEq] at h
        subst h
        by_cases hk : k0 = fid
        · refine Or.inl ?_
          simp [mapFind, hk]
        · simp only [mapFind, if_neg hk]
          exact ih rest2 hrec

theorem reachable_leaderInv (s : NavState) (h : Reachable s) :
    ∀ kf ∈ s.formations, leaderOk kf.2 := by
  refine reachable_formationsInv leaderOk ?_ ?_ ?_ ?_ ?_ s h
  · intro fid t sp
    exact Or.inl rfl
  · intro f a ha hP
    rcases hP with hl | hm
    · exact Or.inl hl
    · exact Or.inr (List.mem_append_left _ hm)
  · intro f a hP
    by_cases hl : f.leader_idx = a
    · exact Or.inl (by simp [removeTransform, hl])
    · rcases hP with h0 | hm
      · exact Or.inl (by simp [removeTransform, hl, h0])
      · refine Or.inr ?_
        show (if f.leader_idx = a then -1 else f.leader_idx) ∈ f.agent_indices.erase a
        rw [if_neg hl]
        exact (List.mem_erase_of_ne hl).mpr hm
  · intro f p d hP
    exact hP
  · intro f a ha _
    exact Or.inr ha

theorem reachable_membersNodup (s : NavState) (h : Reachable s) :
    ∀ kf ∈ s.formations, kf.2.agent_indices.Nodup := by
  refine reachable_formationsInv membersOk ?_ ?_ ?_ ?_ ?_ s h
  · intro fid t sp
    exact List.nodup_nil
  · intro f a ha hP
    have hP' : f.agent_indices.Nodup := hP
    show (f.agent_indices ++ [a]).Nodup
    simp [List.nodup_append, hP', ha]
  · intro f a hP
    exact List.Nodup.erase a hP
  · intro f p d hP
    exact hP
  · intro f a ha hP
    exact hP

theorem reachable_sCrowd : Reachable sCrowd :=
  Reachable.env initState true 4 (fun _ => true) Reachable.init

/-- After one call, the entry at a key that was present is either unchanged,
or transformed exactly as the one mutating branch the call took dictates. -/
theorem step_preserves_entry (s : NavState) (h : Reachable s) (op : FOp)
    (fid : Int) (f f' : Formation)
    (hf : mapFind s.formations fid = some f)
    (hf' : mapFind (applyOp s op).formations fid = some f') :
    f' = f ∨
    (∃ a, op = FOp.add fid a ∧ f' = { f with agent_indices := f.agent_indices ++ [a] }) ∨
    (∃ a, op = FOp.remove a ∧ f' = removeTransform a f) ∨
    (∃ a, op = FOp.setLeader fid a ∧ f' = { f with leader_idx := a }) ∨
    (∃ p d, op = FOp.setTarget fid p d ∧ f'.has_target = true) := by
  cases op with
  | create t sp =>
    by_cases hc : s.is_crowd_init = false
    · simp only [applyOp, create_formation, if_pos hc, hf, Option.some.injEq] at hf'
      exact Or.inl hf'.symm
    · have hfr : fid ≠ s.next_formation_id :=
        ne_of_lt (reachable_counterInv s h (fid, f) (mapFind_some_mem _ _ _ hf))
      simp only [applyOp, create_formation, if_neg hc] at hf'
      rw [mapFind_mapInsert_ne _ _ _ _ hfr, hf, Option.some.injEq] at hf'
      exact Or.inl hf'.symm
  | del fid2 =>
    cases hg : mapFind s.formations fid2 with
    | none =>
      simp only [applyOp, delete_formation, hg, hf, Option.some.injEq] at hf'
      exact Or.inl hf'.symm
    | some g =>
      by_cases hk : fid = fid2
      · subst hk
        simp only [applyOp, delete_formation, hg] at hf'
        rw [mapFind_mapErase_self _ _ (reachable_mapWF s h)] at hf'
        exact absurd hf' (by simp)
      · simp only [applyOp, delete_formation, hg] at hf'
        rw [mapFind_mapErase_ne _ _ _ hk, hf, Option.some.injEq] at hf'
        exact Or.inl hf'.symm
  | add fid2 a =>
    by_cases hc : s.is_crowd_init = false
    · simp only [applyOp, add_agent_to_formation, if_pos hc, hf, Option.some.injEq] at hf'
      exact Or.inl hf'.symm
    · cases hg : mapFind s.formations fid2 with
      | none =>
        simp only [applyOp, add_agent_to_formation, if_neg hc, hg, hf,
          Option.some.injEq] at hf'
        exact Or.inl hf'.symm
      | some g =>
        by_cases hb : a < 0 ∨ s.agentCount ≤ a
        · simp only [applyOp, add_agent_to_formation, if_neg hc, hg, if_pos hb, hf,
            Option.some.injEq] at hf'
          exact Or.inl hf'.symm
        · by_cases hmem : a ∈ g.agent_indices
          · simp only [applyOp, add_agent_to_formation, if_neg hc, hg, if_neg hb,
              if_pos hmem, hf, Option.some.injEq] at hf'
            exact Or.inl hf'.symm
          · simp only [applyOp, add_agent_to_formation, if_neg hc, hg, if_neg hb,
              if_neg hmem] at hf'
            by_cases hk : fid = fid2
            · subst hk
              rw [hf, Option.some.injEq] at hg
              subst hg
              rw [mapFind_mapInsert_self, Option.some.injEq] at hf'
              exact Or.inr (Or.inl ⟨a, rfl, hf'.symm⟩)
            · rw [mapFind_mapInsert_ne _ _ _ _ hk, hf, Option.some.injEq] at hf'
              exact Or.inl hf'.symm
  | remove a =>
    by_cases hc : s.is_crowd_init = false
    · simp only [applyOp, remove_agent_from_formation, if_pos hc, hf,
        Option.some.injEq] at hf'
      exact Or.inl hf'.symm
    · cases hr : removeScan s.formations a with
      | none =>
        simp only [applyOp, remove_agent_from_formation, if_neg hc, hr, hf,
          Option.some.injEq] at hf'
        exact Or.inl hf'.symm
      | some m' =>
        simp only [applyOp, remove_agent_from_formation, if_neg hc, hr] at hf'
        rcases removeScan_mapFind a fid s.formations m' hr with he | ⟨g, hg, he⟩
        · rw [he, hf, Option.some.injEq] at hf'
          exact Or.inl hf'.symm
        · rw [hg, Option.some.injEq] at hf
          subst hf
          rw [he, Option.some.injEq] at hf'
          exact Or.inr (Or.inr (Or.inl ⟨a, rfl, hf'.symm⟩))
  | setTarget fid2 p d =>
    cases hg : mapFind s.formations fid2 with
    | none =>
      simp only [applyOp, set_formation_target, hg, hf, Option.some.injEq] at hf'
      exact Or.inl hf'.symm
    | some g =>
      by_cases hp : p.length < 3
      · simp only [applyOp, set_formation_target, hg, if_pos hp, hf,
          Option.some.injEq] at hf'
        exact Or.inl hf'.symm
      · by_cases hd : d.length < 3
        · simp only [applyOp, set_formation_target, hg, if_neg hp, if_pos hd, hf,
            Option.some.injEq] at hf'
          exact Or.inl hf'.symm
        · simp only [applyOp, set_formation_target, hg, if_neg hp, if_neg hd] at hf'
          by_cases hk : fid = fid2
          · subst hk
            rw [mapFind_mapInsert_self, Option.some.injEq] at hf'
            refine Or.inr (Or.inr (Or.inr (Or.inr ⟨p, d, rfl, ?_⟩)))
            rw [← hf']
          · rw [mapFind_mapInsert_ne _ _ _ _ hk, hf, Option.some.injEq] at hf'
            exact Or.inl hf'.symm
  | setLeader fid2 a =>
    cases hg : mapFind s.formations fid2 with
    | none =>
      simp only [applyOp, set_formation_leader, hg, hf, Option.some.injEq] at hf'
      exact Or.inl hf'.symm
    | some g =>
      by_cases hmem : a ∈ g.agent_indices
      · simp only [applyOp, set_formation_leader, hg, if_pos hmem] at hf'
        by_cases hk : fid = fid2
        · subst hk
          rw [hf, Option.some.injEq] at hg
          subst hg
          rw [mapFind_mapInsert_self, Option.some.injEq] at hf'
          exact Or.inr (Or.inr (Or.inr (Or.inl ⟨a, rfl, hf'.symm⟩)))
        · rw [mapFind_mapInsert_ne _ _ _ _ hk, hf, Option.some.injEq] at hf'
          exact Or.inl hf'.symm
      · simp only [applyOp, set_formation_leader, hg, if_neg hmem, hf,
          Option.some.injEq] at hf'
        exact Or.inl hf'.symm
  | tick dt =>
    simp only [applyOp, hf, Option.some.injEq] at hf'
    exact Or.inl hf'.symm

theorem sum_range_sub_const (n : ℕ) (c : ℝ) :
    ∑ i ∈ Finset.range n, ((i : ℝ) - c) = (n : ℝ) * ((n : ℝ) - 1) / 2 - (n : ℝ) * c := by
  induction n with
  | zero => simp
  | succ n ih =>
    rw [Finset.sum_range_succ, ih]
    push_cast
    ring

/-! ## Claims -/

/-- C1 counterexample: on the crowd-initialized state `sCrowd`,
`create_formation` called with the non-positive spacing `-1` does not fail
and does allocate: it returns the fresh id `0` and the registry count rises
from 0 to 1 (the claimed `InvalidArgument` rejection does not exist). -/
theorem create_nonpositive_spacing_succeeds :
    (-1 : ℝ) ≤ 0 ∧
    (create_formation sCrowd 0 (-1)).2 = 0 ∧
    get_formation_count sCrowd = 0 ∧
    get_formation_count (create_formation sCrowd 0 (-1)).1 = 1 :=
  ⟨by norm_num, rfl, rfl, rfl⟩

/-- C1 (amended): `create_formation` performs no validation of `spacing`:
for every spacing, including values ≤ 0, a call on a crowd-initialized
reachable state succeeds — it returns the fresh monotonic id, bumps the id
counter, stores the new formation under that id, and grows the count by
one. -/
theorem create_accepts_any_spacing (s : NavState) (h : Reachable s)
    (hc : s.is_crowd_init = true) (t : Int) (sp : ℝ) :
    (create_formation s t sp).2 = s.next_formation_id ∧
    (create_formation s t sp).1.next_formation_id = s.next_formation_id + 1 ∧
    mapFind (create_formation s t sp).1.formations s.next_formation_id =
      some (newFormation s.next_formation_id t sp) ∧
    get_formation_count (create_formation s t sp).1 = get_formation_count s + 1 := by
  refine ⟨by simp [create_formation, hc], by simp [create_formation, hc], ?_, ?_⟩
  · simp only [create_formation, hc]
    simp only [Bool.true_eq_false, if_false]
    exact mapFind_mapInsert_self _ _ _
  · have hfresh : ∀ kf ∈ s.formations, kf.1 ≠ s.next_formation_id :=
      fun kf hkf => ne_of_lt (reachable_counterInv s h kf hkf)
    simp only [create_formation, hc, Bool.true_eq_false, if_false, get_formation_count]
    rw [mapInsert_length_fresh _ _ _ hfresh]
    push_cast
    ring

theorem create_accepts_any_spacing_witness :
    (create_formation sCrowd 0 0).2 = sCrowd.next_formation_id ∧
    (create_formation sCrowd 0 0).1.next_formation_id = sCrowd.next_formation_id + 1 ∧
    mapFind (create_formation sCrowd 0 0).1.formations sCrowd.next_formation_id =
      some (newFormation sCrowd.next_formation_id 0 0) ∧
    get_formation_count (create_formation sCrowd 0 0).1 = get_formation_count sCrowd + 1 :=
  create_accepts_any_spacing sCrowd reachable_sCrowd rfl 0 0

/-- C2 counterexample: for a 2-member line formation with spacing 1, the
member at insertion index 0 receives the truncated lateral
`(0 - 2/2) * 1 = -1`, not the spec's real-midpoint `(0 - (2-1)/2) * 1 = -1/2`,
and the two lateral offsets sum to `-1`, not 0. -/
theorem line_lateral_differs_from_spec :
    lineLateral 2 0 1 = -1 ∧
    lineLateralSpec 2 0 1 = -(1 / 2) ∧
    lineLateral 2 0 1 ≠ lineLateralSpec 2 0 1 ∧
    lineLateral 2 0 1 + lineLateral 2 1 1 = -1 := by
  norm_num [lineLateral, lineLateralSpec]

/-- C2 (amended): the line case of `update_formations` computes the lateral
scalar with the integer-truncated centre `center_idx = num_agents / 2`
(depth 0: the offset is a pure multiple of the right vector), so the lateral
offsets sum to zero exactly for odd N; for even N they sum to
`-(N/2) * spacing`. -/
theorem line_lateral_truncated_sum (N : ℕ) (sp : ℝ) :
    (∀ i right dir, offsetFor 0 N i sp right dir =
      (lineLateral N i sp * right.x, lineLateral N i sp * right.z)) ∧
    (N % 2 = 1 → ∑ i ∈ Finset.range N, lineLateral N i sp = 0) ∧
    (N % 2 = 0 → ∑ i ∈ Finset.range N, lineLateral N i sp = -((N / 2 : ℕ) : ℝ) * sp) := by
  have h1 : ∀ i ∈ Finset.range N,
      lineLateral N i sp = ((i : ℝ) - ((N / 2 : ℕ) : ℝ)) * sp := by
    intro i hi
    simp only [lineLateral, Int.cast_sub, Int.cast_natCast]
  have key : ∑ i ∈ Finset.range N, lineLateral N i sp
      = ((N : ℝ) * ((N : ℝ) - 1) / 2 - (N : ℝ) * ((N / 2 : ℕ) : ℝ)) * sp := by
    rw [Finset.sum_congr rfl h1, ← Finset.sum_mul, sum_range_sub_const]
  refine ⟨fun i right dir => by simp [offsetFor], ?_, ?_⟩
  · intro hodd
    obtain ⟨m, hm⟩ : ∃ m, N = 2 * m + 1 := ⟨N / 2, by omega⟩
    have hdiv : N / 2 = m := by omega
    rw [key, hdiv, hm]
    push_cast
    ring
  · intro heven
    obtain ⟨m, hm⟩ : ∃ m, N = 2 * m := ⟨N / 2, by omega⟩
    have hdiv : N / 2 = m := by omega
    rw [key, hdiv, hm]
    push_cast
    ring

theorem line_lateral_truncated_sum_witness :
    offsetFor 0 3 1 2 ⟨1, 0, 0⟩ ⟨0, 0, 1⟩ = (lineLateral 3 1 2 * 1, lineLateral 3 1 2 * 0) ∧
    (∑ i ∈ Finset.range 3, lineLateral 3 i 2 = 0) ∧
    (∑ i ∈ Finset.range 4, lineLateral 4 i 2 = -((4 / 2 : ℕ) : ℝ) * 2) :=
  ⟨(line_lateral_truncated_sum 3 2).1 1 ⟨1, 0, 0⟩ ⟨0, 0, 1⟩,
   (line_lateral_truncated_sum 3 2).2.1 (by norm_num),
   (line_lateral_truncated_sum 4 2).2.2 (by norm_num)⟩

/-- C4: the sequence of move-target commands `update_formations` dispatches
from a fixed registry state does not depend on `dt` (the source body never
reads it), and a tick writes no registry state, so two consecutive calls
with arbitrary `dt1`, `dt2` dispatch identical command sequences. -/
theorem update_deterministic (s : NavState) (dt1 dt2 : ℝ) :
    update_formations s dt1 = update_formations s dt2 ∧
    applyOp s (FOp.tick dt1) = s :=
  ⟨rfl, rfl⟩

/-- C6: with the crowd initialized, `remove_agent_from_formation` on an
agent that is a member of no formation returns `false` with the state —
every formation's members, leader, target and the registry itself —
unchanged. -/
theorem remove_nonmember_noop (s : NavState) (a : Int)
    (hc : s.is_crowd_init = true)
    (h : ∀ kf ∈ s.formations, a ∉ kf.2.agent_indices) :
    remove_agent_from_formation s a = (s, false) := by
  have hscan := removeScan_none a s.formations h
  simp [remove_agent_from_formation, hc, hscan]

theorem remove_nonmember_noop_witness :
    remove_agent_from_formation
        (add_agent_to_formation (create_formation sCrowd 0 2).1 0 1).1 3 =
      ((add_agent_to_formation (create_formation sCrowd 0 2).1 0 1).1, false) :=
  remove_nonmember_noop _ 3 rfl (by decide)

/-- C10: without crowd initialization, `create_formation` returns `-1` and
changes nothing, `add_agent_to_formation` and `remove_agent_from_formation`
return `false` and change nothing, and `update_formations` dispatches
nothing; `delete_formation`, `set_formation_target` and
`set_formation_leader` have no crowd guard — each acts on the registry
exactly as it would with the crowd initialized. -/
theorem crowd_guard_partition (s : NavState) (hc : s.is_crowd_init = false) :
    (∀ t sp, create_formation s t sp = (s, -1)) ∧
    (∀ fid a, add_agent_to_formation s fid a = (s, false)) ∧
    (∀ a, remove_agent_from_formation s a = (s, false)) ∧
    (∀ dt, update_formations s dt = []) ∧
    (∀ fid, delete_formation { s with is_crowd_init := true } fid =
      ({ (delete_formation s fid).1 with is_crowd_init := true },
        (delete_formation s fid).2)) ∧
    (∀ fid pos dir, set_formation_target { s with is_crowd_init := true } fid pos dir =
      { set_formation_target s fid pos dir with is_crowd_init := true }) ∧
    (∀ fid a, set_formation_leader { s with is_crowd_init := true } fid a =
      { set_formation_leader s fid a with is_crowd_init := true }) := by
  refine ⟨fun t sp => by simp [create_formation, hc],
    fun fid a => by simp [add_agent_to_formation, hc],
    fun a => by simp [remove_agent_from_formation, hc],
    fun dt => by simp [update_formations, hc],
    fun fid => ?_, fun fid pos dir => ?_, fun fid a => ?_⟩
  · cases hf : mapFind s.formations fid with
    | none => simp [delete_formation, hf]
    | some f => simp [delete_formation, hf]
  · cases hf : mapFind s.formations fid with
    | none => simp [set_formation_target, hf]
    | some f =>
      by_cases hp : pos.length < 3
      · simp [set_formation_target, hf, hp]
      · by_cases hd : dir.length < 3
        · simp [set_formation_target, hf, hp, hd]
        · simp [set_formation_target, hf, hp, hd]
  · cases hf : mapFind s.formations fid with
    | none => simp [set_formation_leader, hf]
    | some f =>
      by_cases hmem : a ∈ f.agent_indices
      · simp [set_formation_leader, hf, hmem]
      · simp [set_formation_leader, hf, hmem]

/-- C3 counterexample: from the reachable state built by two `create` calls
and two `add` calls, agent 0 is simultaneously a member of formation 0 and
of formation 1 — membership is not exclusive across formations. -/
theorem agent_in_two_formations :
    ∃ s, Reachable s ∧ ∃ f0 f1,
      mapFind s.formations 0 = some f0 ∧
      mapFind s.formations 1 = some f1 ∧
      (0 : Int) ∈ f0.agent_indices ∧
      (0 : Int) ∈ f1.agent_indices := by
  refine ⟨applyOp (applyOp (applyOp (applyOp sCrowd (FOp.create 0 2)) (FOp.create 0 2))
      (FOp.add 0 0)) (FOp.add 1 0), ?_, ?_⟩
  · exact Reachable.step _ _ (Reachable.step _ _ (Reachable.step _ _
      (Reachable.step _ _ reachable_sCrowd)))
  · exact ⟨{ newFormation 0 0 2 with agent_indices := [0] },
      { newFormation 1 0 2 with agent_indices := [0] }, rfl, rfl, by decide, by decide⟩

/-- C3 (amended): the code does not make membership exclusive across
formations (see the counterexample); what every reachable state does
satisfy is per-formation uniqueness — no formation's member list contains a
duplicate, and `add_agent_to_formation` on an agent already in that same
formation returns `true` without modifying anything. -/
theorem membership_unique_per_formation (s : NavState) (h : Reachable s) :
    (∀ kf ∈ s.formations, kf.2.agent_indices.Nodup) ∧
    (∀ fid a f, mapFind s.formations fid = some f → s.is_crowd_init = true →
      ¬(a < 0 ∨ s.agentCount ≤ a) → a ∈ f.agent_indices →
      add_agent_to_formation s fid a = (s, true)) := by
  refine ⟨reachable_membersNodup s h, ?_⟩
  intro fid a f hf hc hb hmem
  simp [add_agent_to_formation, hc, hf, hb, hmem]

theorem membership_unique_per_formation_witness :
    add_agent_to_formation
        (add_agent_to_formation (create_formation sCrowd 0 2).1 0 1).1 0 1 =
      ((add_agent_to_formation (create_formation sCrowd 0 2).1 0 1).1, true) := by
  have hr : Reachable (add_agent_to_formation (create_formation sCrowd 0 2).1 0 1).1 :=
    Reachable.step _ (FOp.add 0 1) (Reachable.step _ (FOp.create 0 2) reachable_sCrowd)
  exact (membership_unique_per_formation _ hr).2 0 1
    { newFormation 0 0 2 with agent_indices := [1] } rfl rfl (by decide) (by decide)

/-- C5: at every reachable registry state each formation's leader is either
unset (`-1`) or an element of that formation's members;
`set_formation_leader` on a non-member leaves the state unchanged; and no
`remove_agent_from_formation` call leaves a dangling leader (removing the
leader clears it). -/
theorem leader_always_member (s : NavState) (h : Reachable s) :
    (∀ kf ∈ s.formations,
      kf.2.leader_idx = -1 ∨ kf.2.leader_idx ∈ kf.2.agent_indices) ∧
    (∀ fid a f, mapFind s.formations fid = some f → a ∉ f.agent_indices →
      set_formation_leader s fid a = s) ∧
    (∀ a, ∀ kf ∈ (remove_agent_from_formation s a).1.formations,
      kf.2.leader_idx = -1 ∨ kf.2.leader_idx ∈ kf.2.agent_indices) := by
  refine ⟨reachable_leaderInv s h, ?_, ?_⟩
  · intro fid a f hf hmem
    simp [set_formation_leader, hf, hmem]
  · intro a
    exact reachable_leaderInv _ (Reachable.step s (FOp.remove a) h)

theorem leader_always_member_witness :
    set_formation_leader
        (set_formation_leader
          (add_agent_to_formation (create_formation sCrowd 0 2).1 0 1).1 0 1) 0 3 =
      set_formation_leader
        (add_agent_to_formation (create_formation sCrowd 0 2).1 0 1).1 0 1 := by
  have hr : Reachable (set_formation_leader
      (add_agent_to_formation (create_formation sCrowd 0 2).1 0 1).1 0 1) :=
    Reachable.step _ (FOp.setLeader 0 1)
      (Reachable.step _ (FOp.add 0 1) (Reachable.step _ (FOp.create 0 2) reachable_sCrowd))
  exact (leader_always_member _ hr).2.1 0 3
    { newFormation 0 0 2 with agent_indices := [1], leader_idx := 1 } rfl (by decide)

theorem normalized_unit (dx dy dz : ℝ)
    (h : (0.001 : ℝ) < Real.sqrt (dx * dx + dy * dy + dz * dz)) :
    dx / Real.sqrt (dx * dx + dy * dy + dz * dz) *
        (dx / Real.sqrt (dx * dx + dy * dy + dz * dz)) +
      dy / Real.sqrt (dx * dx + dy * dy + dz * dz) *
        (dy / Real.sqrt (dx * dx + dy * dy + dz * dz)) +
      dz / Real.sqrt (dx * dx + dy * dy + dz * dz) *
        (dz / Real.sqrt (dx * dx + dy * dy + dz * dz)) = 1 := by
  have hS : (0 : ℝ) < dx * dx + dy * dy + dz * dz :=
    Real.sqrt_pos.mp (lt_trans (by norm_num) h)
  have hmul : Real.sqrt (dx * dx + dy * dy + dz * dz) *
      Real.sqrt (dx * dx + dy * dy + dz * dz) = dx * dx + dy * dy + dz * dz :=
    Real.mul_self_sqrt hS.le
  rw [div_mul_div_comm, div_mul_div_comm, div_mul_div_comm, div_add_div_same,
    div_add_div_same, hmul, div_self (ne_of_gt hS)]

/-- C7: a successful `set_formation_target` (known id, both vectors of
length ≥ 3) always stores a unit heading: a degenerate input heading —
length ≤ 0.001, e.g. `(0,0,0)` — is not rejected but replaced by the
canonical default `(0,0,1)`, a non-degenerate one is stored divided by its
length, and in both cases the stored heading has squared norm 1 (hence
positive length). -/
theorem stored_heading_normalized (s : NavState) (fid : Int) (f : Formation)
    (pos dir : List ℝ) (hf : mapFind s.formations fid = some f)
    (hp : ¬pos.length < 3) (hd : ¬dir.length < 3) :
    ∃ f', mapFind (set_formation_target s fid pos dir).formations fid = some f' ∧
      f'.has_target = true ∧
      f'.target_dir.x * f'.target_dir.x + f'.target_dir.y * f'.target_dir.y +
        f'.target_dir.z * f'.target_dir.z = 1 ∧
      (Real.sqrt (dir.getD 0 0 * dir.getD 0 0 + dir.getD 1 0 * dir.getD 1 0 +
          dir.getD 2 0 * dir.getD 2 0) ≤ 0.001 → f'.target_dir = ⟨0, 0, 1⟩) ∧
      ((0.001 : ℝ) < Real.sqrt (dir.getD 0 0 * dir.getD 0 0 + dir.getD 1 0 * dir.getD 1 0 +
          dir.getD 2 0 * dir.getD 2 0) →
        f'.target_dir = ⟨dir.getD 0 0 / Real.sqrt (dir.getD 0 0 * dir.getD 0 0 +
            dir.getD 1 0 * dir.getD 1 0 + dir.getD 2 0 * dir.getD 2 0),
          dir.getD 1 0 / Real.sqrt (dir.getD 0 0 * dir.getD 0 0 +
            dir.getD 1 0 * dir.getD 1 0 + dir.getD 2 0 * dir.getD 2 0),
          dir.getD 2 0 / Real.sqrt (dir.getD 0 0 * dir.getD 0 0 +
            dir.getD 1 0 * dir.getD 1 0 + dir.getD 2 0 * dir.getD 2 0)⟩) := by
  by_cases hlen : (0.001 : ℝ) < Real.sqrt (dir.getD 0 0 * dir.getD 0 0 +
      dir.getD 1 0 * dir.getD 1 0 + dir.getD 2 0 * dir.getD 2 0)
  · simp only [set_formation_target, hf, if_neg hp, if_neg hd, if_pos hlen]
    exact ⟨_, mapFind_mapInsert_self _ _ _, rfl,
      normalized_unit (dir.getD 0 0) (dir.getD 1 0) (dir.getD 2 0) hlen,
      fun hle => absurd hlen (not_lt.mpr hle), fun _ => rfl⟩
  · simp only [set_formation_target, hf, if_neg hp, if_neg hd, if_neg hlen]
    exact ⟨_, mapFind_mapInsert_self _ _ _, rfl,
      by norm_num, fun _ => rfl, fun hlt => absurd hlt hlen⟩

theorem stored_heading_normalized_witness :
    (∃ f', mapFind (set_formation_target (create_formation sCrowd 0 2).1 0
        [50, 0, 50] [0, 0, 0]).formations 0 = some f' ∧ f'.target_dir = ⟨0, 0, 1⟩) ∧
    (∃ f', mapFind (set_formation_target (create_formation sCrowd 0 2).1 0
        [50, 0, 50] [0, 0, 2]).formations 0 = some f' ∧
      f'.target_dir = ⟨0 / Real.sqrt (0 * 0 + 0 * 0 + 2 * 2),
        0 / Real.sqrt (0 * 0 + 0 * 0 + 2 * 2), 2 / Real.sqrt (0 * 0 + 0 * 0 + 2 * 2)⟩) := by
  have hlen3 : ¬([50, 0, 50] : List ℝ).length < 3 := by simp
  have hsqrt0 : Real.sqrt ((0 : ℝ) * 0 + 0 * 0 + 0 * 0) ≤ 0.001 := by
    norm_num [Real.sqrt_zero]
  have hsqrt4 : (0.001 : ℝ) < Real.sqrt ((0 : ℝ) * 0 + 0 * 0 + 2 * 2) := by
    have h4 : Real.sqrt ((0 : ℝ) * 0 + 0 * 0 + 2 * 2) = 2 := by
      rw [show (0 : ℝ) * 0 + 0 * 0 + 2 * 2 = 2 ^ 2 by norm_num,
        Real.sqrt_sq (by norm_num : (0 : ℝ) ≤ 2)]
    rw [h4]
    norm_num
  constructor
  · obtain ⟨f', h1, _, _, h4, _⟩ := stored_heading_normalized
      (create_formation sCrowd 0 2).1 0 (newFormation 0 0 2)
      [50, 0, 50] [0, 0, 0] rfl hlen3 (by simp)
    exact ⟨f', h1, h4 hsqrt0⟩
  · obtain ⟨f', h1, _, _, _, h5⟩ := stored_heading_normalized
      (create_formation sCrowd 0 2).1 0 (newFormation 0 0 2)
      [50, 0, 50] [0, 0, 2] rfl hlen3 (by simp)
    exact ⟨f', h1, h5 hsqrt4⟩

/-- C8: `has_target` is `false` on the formation `create_formation` builds,
a successful `set_formation_target` sets it `true`, and once `true` no call
resets it; every call other than a re-target of that formation also leaves
the stored target pose bit-identical, until the formation is deleted. -/
theorem has_target_lifecycle (s : NavState) (h : Reachable s) :
    (∀ t sp, s.is_crowd_init = true →
      mapFind (create_formation s t sp).1.formations s.next_formation_id =
        some (newFormation s.next_formation_id t sp) ∧
      (newFormation s.next_formation_id t sp).has_target = false) ∧
    (∀ fid f pos dir, mapFind s.formations fid = some f →
      ¬pos.length < 3 → ¬dir.length < 3 →
      ∃ f', mapFind (set_formation_target s fid pos dir).formations fid = some f' ∧
        f'.has_target = true) ∧
    (∀ op fid f f', mapFind s.formations fid = some f →
      mapFind (applyOp s op).formations fid = some f' →
      (f.has_target = true → f'.has_target = true) ∧
      ((∀ p d, op ≠ FOp.setTarget fid p d) →
        f'.has_target = f.has_target ∧ f'.target_pos = f.target_pos ∧
        f'.target_dir = f.target_dir)) := by
  refine ⟨?_, ?_, ?_⟩
  · intro t sp hc
    refine ⟨?_, rfl⟩
    simp only [create_formation, hc, Bool.true_eq_false, if_false]
    exact mapFind_mapInsert_self _ _ _
  · intro fid f pos dir hf hp hd
    simp only [set_formation_target, hf, if_neg hp, if_neg hd]
    exact ⟨_, mapFind_mapInsert_self _ _ _, rfl⟩
  · intro op fid f f' hf hf'
    rcases step_preserves_entry s h op fid f f' hf hf' with
      he | ⟨a, hop, he⟩ | ⟨a, hop, he⟩ | ⟨a, hop, he⟩ | ⟨p, d, hop, he⟩
    · subst he; exact ⟨fun ht => ht, fun _ => ⟨rfl, rfl, rfl⟩⟩
    · subst he; exact ⟨fun ht => ht, fun _ => ⟨rfl, rfl, rfl⟩⟩
    · subst he; exact ⟨fun ht => ht, fun _ => ⟨rfl, rfl, rfl⟩⟩
    · subst he; exact ⟨fun ht => ht, fun _ => ⟨rfl, rfl, rfl⟩⟩
    · subst hop
      exact ⟨fun _ => he, fun hne => absurd rfl (hne p d)⟩

theorem has_target_lifecycle_witness :
    mapFind (create_formation sCrowd 0 2).1.formations sCrowd.next_formation_id =
      some (newFormation sCrowd.next_formation_id 0 2) ∧
    (newFormation sCrowd.next_formation_id 0 2).has_target = false :=
  (has_target_lifecycle sCrowd reachable_sCrowd).1 0 2 rfl

/-- C9: deleting an existing formation removes exactly that entry: the
count drops by one, a members query on the deleted id now reports it
unknown, no movement-engine command is issued for its former members, and
every other formation's registry entry is untouched. -/
theorem delete_formation_frame (s : NavState) (h : Reachable s) (fid : Int)
    (f : Formation) (hf : mapFind s.formations fid = some f) :
    (delete_formation s fid).2 = [] ∧
    get_formation_count (delete_formation s fid).1 + 1 = get_formation_count s ∧
    get_formation_agents (delete_formation s fid).1 fid = none ∧
    (∀ fid', fid' ≠ fid →
      mapFind (delete_formation s fid).1.formations fid' = mapFind s.formations fid') := by
  refine ⟨?_, ?_, ?_, ?_⟩
  · simp [delete_formation, hf]
  · simp only [delete_formation, hf, get_formation_count]
    exact_mod_cast mapErase_length s.formations fid f hf
  · simp only [delete_formation, hf, get_formation_agents]
    rw [mapFind_mapErase_self _ _ (reachable_mapWF s h)]
  · intro fid' hne
    simp only [delete_formation, hf]
    exact mapFind_mapErase_ne _ _ _ hne

theorem delete_formation_frame_witness :
    (delete_formation (create_formation sCrowd 0 2).1 0).2 = [] ∧
    get_formation_count (delete_formation (create_formation sCrowd 0 2).1 0).1 + 1 =
      get_formation_count (create_formation sCrowd 0 2).1 ∧
    get_formation_agents (delete_formation (create_formation sCrowd 0 2).1 0).1 0 = none ∧
    (∀ fid', fid' ≠ 0 →
      mapFind (delete_formation (create_formation sCrowd 0 2).1 0).1.formations fid' =
        mapFind (create_formation sCrowd 0 2).1.formations fid') :=
  delete_formation_frame _ (Reachable.step _ (FOp.create 0 2) reachable_sCrowd) 0
    (newFormation 0 0 2) rfl

theorem crowd_guard_partition_witness :
    create_formation initState 0 1 = (initState, -1) ∧
    add_agent_to_formation initState 0 0 = (initState, false) ∧
    remove_agent_from_formation initState 0 = (initState, false) ∧
    update_formations initState 1 = [] ∧
    delete_formation { initState with is_crowd_init := true } 0 =
      ({ (delete_formation initState 0).1 with is_crowd_init := true },
        (delete_formation initState 0).2) := by
  have h := crowd_guard_partition initState rfl
  exact ⟨h.1 0 1, h.2.1 0 0, h.2.2.1 0, h.2.2.2.1 1, h.2.2.2.2.1 0⟩

end PyRecastDetour
